import Mathlib

/-!
Verification of the streaming response parser (`StreamParser` in
`lambda/websocket/stream_parser.py`) and the routing fallback of the
bedrock-shopping-agent repository, via a shallow embedding in Lean.

Python strings are modelled as `List Char`; the WebSocket output sink is
modelled as an event log carried in the parser state (the source's
`_send_to_connection` retry loop only fails on transport errors, which are
outside the parsing semantics modelled here).
-/

namespace ShoppingAgent

/-- Python strings modelled as lists of characters. -/
abbrev Str := List Char

/-- Whitespace test matching Python `str.strip()` on the ASCII alphabet used here. -/
def isSpace (c : Char) : Bool :=
  c == ' ' || c == '\t' || c == '\n' || c == '\r'

/-- Python `str.strip()`: remove leading and trailing whitespace. -/
def strip (s : Str) : Str :=
  ((s.dropWhile isSpace).reverse.dropWhile isSpace).reverse

/-- Python `str.split(',')`: split at every comma, keeping empty tokens. -/
def splitOnComma : Str → List Str
  | [] => [[]]
  | c :: rest =>
    if c == ',' then [] :: splitOnComma rest
    else
      match splitOnComma rest with
      | t :: ts => (c :: t) :: ts
      | [] => [[c]]

/-- The identifier parsing shared by `_send_products` and `_send_orders`:
`[id.strip() for id in data.split(',') if id.strip()]`. -/
def parseIds (s : Str) : List Str :=
  ((splitOnComma s).map strip).filter (fun t => !t.isEmpty)

/-- First index at which `pat` occurs as a substring (Python `str.find`). -/
def findSub (pat : Str) : Str → Option Nat
  | [] => if pat.isEmpty then some 0 else none
  | c :: rest =>
    if pat.isPrefixOf (c :: rest) then some 0
    else (findSub pat rest).map (· + 1)

/-- First index at which any one of the literals `pats` occurs as a substring. -/
def findAnySub (pats : List Str) : Str → Option Nat
  | [] => if pats.any (fun p => p.isEmpty) then some 0 else none
  | c :: rest =>
    if pats.any (fun p => p.isPrefixOf (c :: rest)) then some 0
    else (findAnySub pats rest).map (· + 1)

/-- Python's `in` operator on strings. -/
def containsSub (pat : Str) (s : Str) : Bool :=
  (findSub pat s).isSome

/-- Open marker of `PRODUCTS_PATTERN`. -/
def PRODUCTS_OPEN : Str := "<|PRODUCTS|>".toList

/-- The close-marker alternatives of `PRODUCTS_PATTERN`, in alternation order. -/
def PRODUCTS_CLOSES : List Str :=
  ["<|/PRODUCTS|>".toList, "<|/PRODUCTS>".toList, "</|PRODUCTS|>".toList]

/-- Open marker of `ORDERS_PATTERN`. -/
def ORDERS_OPEN : Str := "<|ORDERS|>".toList

/-- The close-marker alternatives of `ORDERS_PATTERN`, in alternation order. -/
def ORDERS_CLOSES : List Str :=
  ["<|/ORDERS|>".toList, "<|/ORDERS>".toList, "</|ORDERS|>".toList]

/-- Semantics of `PATTERN.search(buffer)` for the two section patterns
`open(.*?)(close1|close2|close3)` with DOTALL: the match starts at the leftmost
occurrence of the open marker that is followed by a close variant, and — by
laziness of `(.*?)` — `group(1)` runs to the earliest close-variant occurrence
after the open marker.  Only `start()` and `group(1)` are consumed by the
source, so the result is that pair. -/
def sectionMatch (openM : Str) (closes : List Str) (s : Str) : Option (Nat × Str) :=
  match findSub openM s with
  | none => none
  | some i =>
    let tail := s.drop (i + openM.length)
    match findAnySub closes tail with
    | none => none
    | some k => some (i, tail.take k)

/-- An entry of the externally supplied `search_results` list; only the
`_source.id` field is consulted by the parser. -/
structure Product where
  sourceId : Str
deriving DecidableEq, Repr

/-- An entry of the externally supplied `orders_list`; the parser consults
`order_id`, `timestamp` and `delivery_status`. -/
structure Order where
  order_id : Str
  timestamp : Str
  delivery_status : Str
deriving DecidableEq, Repr

/-- Events posted to the WebSocket connection by the parser. -/
inductive Event where
  | textChunk (content : Str)
  | productSearch (results : List Product)
  | order (order_id order_date status : Str)
  | streamEnd
deriving DecidableEq, Repr

/-- State of one `StreamParser` session, plus the log of emitted events. -/
structure ParserState where
  search_results : List Product
  orders_list : List Order
  buffer : Str
  complete_response : Str
  content_sent : Bool
  sections_found : Nat
  chunks_processed : Nat
  events : List Event
deriving DecidableEq, Repr

/-- `StreamParser.__init__` with the given reference collections. -/
def initParser (results : List Product) (orders : List Order) : ParserState :=
  { search_results := results
    orders_list := orders
    buffer := []
    complete_response := []
    content_sent := false
    sections_found := 0
    chunks_processed := 0
    events := [] }

/-- `_send_to_connection`: append the event to the log. -/
def emit (st : ParserState) (e : Event) : ParserState :=
  { st with events := st.events ++ [e] }

/-- `_send_text_chunk`: drop whitespace-only text, otherwise emit it. -/
def sendTextChunk (st : ParserState) (text : Str) : ParserState :=
  if (strip text).isEmpty then st else emit st (Event.textChunk text)

/-- `_send_products`: parse identifiers, select the matching search results in
their original order, and emit a single batch when the selection is nonempty. -/
def sendProducts (st : ParserState) (productData : Str) : ParserState :=
  let item_ids := parseIds productData
  if item_ids.isEmpty || st.search_results.isEmpty then st
  else
    let highlighted := st.search_results.filter (fun r => item_ids.contains r.sourceId)
    if highlighted.isEmpty then st else emit st (Event.productSearch highlighted)

/-- The per-identifier loop of `_send_orders`: first matching order wins,
identifiers without a match are skipped. -/
def sendOrdersLoop (orders : List Order) (st : ParserState) : List Str → ParserState
  | [] => st
  | oid :: rest =>
    match orders.find? (fun o => o.order_id == oid) with
    | some o =>
      sendOrdersLoop orders (emit st (Event.order o.order_id o.timestamp o.delivery_status)) rest
    | none => sendOrdersLoop orders st rest

/-- `_send_orders`. -/
def sendOrders (st : ParserState) (orderData : Str) : ParserState :=
  let order_ids := parseIds orderData
  if order_ids.isEmpty || st.orders_list.isEmpty then st
  else sendOrdersLoop st.orders_list st order_ids

/-- `_process_products_section` applied to a match with start `i` and
`group(1)` equal to `content`. -/
def processProductsSection (st : ParserState) (i : Nat) (content : Str) : ParserState :=
  let beforeSection := st.buffer.take i
  let st1 := if (strip beforeSection).isEmpty then st else sendTextChunk st beforeSection
  let st2 := sendProducts st1 (strip content)
  let st3 := { st2 with content_sent := true, buffer := [] }
  { st3 with sections_found := st3.sections_found + 1 }

/-- `_process_orders_section` applied to a match with start `i` and
`group(1)` equal to `content`. -/
def processOrdersSection (st : ParserState) (i : Nat) (content : Str) : ParserState :=
  let beforeSection := st.buffer.take i
  let st1 := if (strip beforeSection).isEmpty then st else sendTextChunk st beforeSection
  let st2 := sendOrders st1 (strip content)
  let st3 := { st2 with content_sent := true, buffer := [] }
  { st3 with sections_found := st3.sections_found + 1 }

/-- `_process_complete_sections`: Products is searched first, Orders only when
no complete Products section is present. -/
def processCompleteSections (st : ParserState) : Option ParserState :=
  match sectionMatch PRODUCTS_OPEN PRODUCTS_CLOSES st.buffer with
  | some (i, content) => some (processProductsSection st i content)
  | none =>
    match sectionMatch ORDERS_OPEN ORDERS_CLOSES st.buffer with
    | some (i, content) => some (processOrdersSection st i content)
    | none => none

/-- `_has_partial_markers`: exactly the six literals tested by the source. -/
def hasPartialMarkers (st : ParserState) : Bool :=
  containsSub PRODUCTS_OPEN st.buffer ||
  containsSub ORDERS_OPEN st.buffer ||
  containsSub "<|/PRODUCTS|>".toList st.buffer ||
  containsSub "<|/ORDERS|>".toList st.buffer ||
  containsSub "</|PRODUCTS|>".toList st.buffer ||
  containsSub "</|ORDERS|>".toList st.buffer

/-- The earliest open-marker position computed by `_handle_partial_sections`
(`len(buffer)` when neither open marker occurs). -/
def earliestOpenPos (buf : Str) : Nat :=
  let p := (findSub PRODUCTS_OPEN buf).getD buf.length
  let q := (findSub ORDERS_OPEN buf).getD buf.length
  min p q

/-- `_handle_partial_sections`: forward the text before the earliest open
marker and keep the rest buffered. -/
def handlePartialSections (st : ParserState) : ParserState :=
  let pos := earliestOpenPos st.buffer
  if 0 < pos then
    let safeText := st.buffer.take pos
    let st1 := sendTextChunk st safeText
    { st1 with buffer := st.buffer.drop pos }
  else st

/-- `_send_safe_text`: withhold the last 20 characters, forward the rest when
it is not whitespace-only. -/
def sendSafeText (st : ParserState) : ParserState :=
  if st.buffer.length ≤ 20 then st
  else
    let safeLen := st.buffer.length - 20
    let safeText := st.buffer.take safeLen
    let st1 := { st with buffer := st.buffer.drop safeLen }
    if (strip safeText).isEmpty then st1 else sendTextChunk st1 safeText

/-- `_handle_streaming_text`. -/
def handleStreamingText (st : ParserState) : ParserState :=
  if hasPartialMarkers st then handlePartialSections st else sendSafeText st

/-- The unconditional bookkeeping at the top of `parse_chunk`: count the chunk
and append it to `complete_response` and to the buffer. -/
def absorbChunk (st : ParserState) (textChunk : Str) : ParserState :=
  { st with
    chunks_processed := st.chunks_processed + 1
    complete_response := st.complete_response ++ textChunk
    buffer := st.buffer ++ textChunk }

/-- `parse_chunk`. -/
def parseChunk (st : ParserState) (textChunk : Str) : ParserState :=
  if textChunk.isEmpty then st
  else
    let st1 := absorbChunk st textChunk
    if st1.content_sent then st1
    else
      match processCompleteSections st1 with
      | some st2 => st2
      | none => handleStreamingText st1

/-- `flush`. -/
def flush (st : ParserState) : ParserState :=
  let st1 := sendTextChunk st st.buffer
  { st1 with buffer := [] }

/-- `finalize`. -/
def finalize (st : ParserState) : ParserState :=
  let st1 :=
    if !st.content_sent && !(strip st.buffer).isEmpty then sendTextChunk st st.buffer else st
  let st2 := emit st1 Event.streamEnd
  { st2 with buffer := [] }

/-- Apply a list of increments through `parse_chunk` in order. -/
def runChunks (st : ParserState) (chunks : List Str) : ParserState :=
  chunks.foldl parseChunk st

/-- One public operation on a live session. -/
inductive Op where
  | chunk (s : Str)
  | flushOp
  | finalizeOp
deriving DecidableEq, Repr

/-- Apply one public operation. -/
def applyOp (st : ParserState) : Op → ParserState
  | Op.chunk s => parseChunk st s
  | Op.flushOp => flush st
  | Op.finalizeOp => finalize st

/-- Apply a sequence of public operations. -/
def runOps (st : ParserState) (ops : List Op) : ParserState :=
  ops.foldl applyOp st

/-- The structured (non-display, non-terminal) events of a log. -/
def structuredEvents (evs : List Event) : List Event :=
  evs.filter (fun e =>
    match e with
    | Event.textChunk _ => false
    | Event.streamEnd => false
    | _ => true)

/-- Number of `order` events in a log. -/
def countOrderEvents (evs : List Event) : Nat :=
  (evs.filter (fun e =>
    match e with
    | Event.order _ _ _ => true
    | _ => false)).length

/-- Number of `stream_end` events in a log. -/
def countStreamEnd (evs : List Event) : Nat :=
  (evs.filter (fun e =>
    match e with
    | Event.streamEnd => true
    | _ => false)).length

/-- A text chunk that is not whitespace-only, or any non-text event. -/
def noWsText (e : Event) : Bool :=
  match e with
  | Event.textChunk t => !(strip t).isEmpty
  | _ => true

/-! ### Event deltas of the individual send helpers -/

/-- Events appended by `_send_text_chunk text`. -/
def textDelta (t : Str) : List Event :=
  if (strip t).isEmpty then [] else [Event.textChunk t]

/-- Events appended by `_send_products data`. -/
def prodDelta (results : List Product) (data : Str) : List Event :=
  let ids := parseIds data
  let highlighted := results.filter (fun r => ids.contains r.sourceId)
  if highlighted.isEmpty then [] else [Event.productSearch highlighted]

/-- Events appended by `_send_orders data`: one event per identifier that has a
match, in identifier order, first matching order entry, presentation fields only. -/
def ordDelta (orders : List Order) (data : Str) : List Event :=
  (parseIds data).filterMap (fun oid =>
    (orders.find? (fun o => o.order_id == oid)).map
      (fun o => Event.order o.order_id o.timestamp o.delivery_status))

theorem sendTextChunk_eq (st : ParserState) (t : Str) :
    sendTextChunk st t = { st with events := st.events ++ textDelta t } := by
  unfold sendTextChunk textDelta emit
  split <;> simp

theorem prodDelta_nil_of_guard (results : List Product) (d : Str)
    (h : ((parseIds d).isEmpty || results.isEmpty) = true) : prodDelta results d = [] := by
  have h' : parseIds d = [] ∨ results = [] := by
    simpa [List.isEmpty_iff] using h
  unfold prodDelta
  rcases h' with h' | h' <;> simp [h']

theorem sendProducts_eq (st : ParserState) (d : Str) :
    sendProducts st d = { st with events := st.events ++ prodDelta st.search_results d } := by
  unfold sendProducts
  dsimp only
  split
  · rename_i hg
    rw [prodDelta_nil_of_guard _ _ hg, List.append_nil]
  · unfold prodDelta
    dsimp only
    split <;> simp [emit]

theorem sendOrdersLoop_eq (orders : List Order) (ids : List Str) (st : ParserState) :
    sendOrdersLoop orders st ids =
      { st with events := st.events ++ ids.filterMap (fun oid =>
          (orders.find? (fun o => o.order_id == oid)).map
            (fun o => Event.order o.order_id o.timestamp o.delivery_status)) } := by
  induction ids generalizing st with
  | nil => simp [sendOrdersLoop]
  | cons oid rest ih =>
    unfold sendOrdersLoop
    cases hfind : orders.find? (fun o => o.order_id == oid) with
    | none => simp [ih, hfind, List.filterMap_cons]
    | some o => simp [ih, hfind, emit, List.filterMap_cons]

theorem ordDelta_nil_of_guard (orders : List Order) (d : Str)
    (h : ((parseIds d).isEmpty || orders.isEmpty) = true) : ordDelta orders d = [] := by
  have h' : parseIds d = [] ∨ orders = [] := by
    simpa [List.isEmpty_iff] using h
  unfold ordDelta
  rcases h' with h' | h' <;> simp [h']

theorem sendOrders_eq (st : ParserState) (d : Str) :
    sendOrders st d = { st with events := st.events ++ ordDelta st.orders_list d } := by
  unfold sendOrders
  dsimp only
  split
  · rename_i hg
    rw [ordDelta_nil_of_guard _ _ hg, List.append_nil]
  · exact sendOrdersLoop_eq st.orders_list (parseIds d) st

theorem processProductsSection_eq (st : ParserState) (i : Nat) (c : Str) :
    processProductsSection st i c =
      { st with
        content_sent := true
        buffer := []
        sections_found := st.sections_found + 1
        events := st.events ++ textDelta (st.buffer.take i)
                  ++ prodDelta st.search_results (strip c) } := by
  unfold processProductsSection
  dsimp only
  have hst1 : (if (strip (st.buffer.take i)).isEmpty then st
      else sendTextChunk st (st.buffer.take i)) =
      { st with events := st.events ++ textDelta (st.buffer.take i) } := by
    split
    · rename_i h
      simp [textDelta, h]
    · exact sendTextChunk_eq st (st.buffer.take i)
  rw [hst1, sendProducts_eq]

theorem processOrdersSection_eq (st : ParserState) (i : Nat) (c : Str) :
    processOrdersSection st i c =
      { st with
        content_sent := true
        buffer := []
        sections_found := st.sections_found + 1
        events := st.events ++ textDelta (st.buffer.take i)
                  ++ ordDelta st.orders_list (strip c) } := by
  unfold processOrdersSection
  dsimp only
  have hst1 : (if (strip (st.buffer.take i)).isEmpty then st
      else sendTextChunk st (st.buffer.take i)) =
      { st with events := st.events ++ textDelta (st.buffer.take i) } := by
    split
    · rename_i h
      simp [textDelta, h]
    · exact sendTextChunk_eq st (st.buffer.take i)
  rw [hst1, sendOrders_eq]

/-- `_handle_streaming_text` only changes the buffer and appends display text. -/
theorem handleStreamingText_shape (st : ParserState) :
    ∃ t b, handleStreamingText st = { st with buffer := b, events := st.events ++ textDelta t } := by
  unfold handleStreamingText handlePartialSections sendSafeText
  dsimp only
  split
  · split
    · refine ⟨st.buffer.take (earliestOpenPos st.buffer), st.buffer.drop (earliestOpenPos st.buffer), ?_⟩
      rw [sendTextChunk_eq]
    · exact ⟨[], st.buffer, by simp [textDelta, strip]⟩
  · split
    · exact ⟨[], st.buffer, by simp [textDelta, strip]⟩
    · split
      · rename_i h
        exact ⟨st.buffer.take (st.buffer.length - 20), st.buffer.drop (st.buffer.length - 20),
          by simp [textDelta, h]⟩
      · refine ⟨st.buffer.take (st.buffer.length - 20), st.buffer.drop (st.buffer.length - 20), ?_⟩
        rw [sendTextChunk_eq]

/-- `_process_complete_sections` case analysis: a successful call processed the
Products section, or found no Products section and processed the Orders one. -/
theorem processCompleteSections_spec (st : ParserState) (st2 : ParserState)
    (h : processCompleteSections st = some st2) :
    (∃ i c, sectionMatch PRODUCTS_OPEN PRODUCTS_CLOSES st.buffer = some (i, c) ∧
      st2 = processProductsSection st i c) ∨
    (sectionMatch PRODUCTS_OPEN PRODUCTS_CLOSES st.buffer = none ∧
     ∃ i c, sectionMatch ORDERS_OPEN ORDERS_CLOSES st.buffer = some (i, c) ∧
      st2 = processOrdersSection st i c) := by
  unfold processCompleteSections at h
  cases hp : sectionMatch PRODUCTS_OPEN PRODUCTS_CLOSES st.buffer with
  | some pr =>
    rw [hp] at h
    exact Or.inl ⟨pr.1, pr.2, by simp, by simpa using h.symm⟩
  | none =>
    rw [hp] at h
    cases ho : sectionMatch ORDERS_OPEN ORDERS_CLOSES st.buffer with
    | some pr =>
      rw [ho] at h
      exact Or.inr ⟨rfl, pr.1, pr.2, by simp, by simpa using h.symm⟩
    | none =>
      rw [ho] at h
      exact absurd h (by simp)

/-- Case analysis of one `parse_chunk` call: empty chunk, suppressed chunk,
streaming-text step, or section-processing step. -/
theorem parseChunk_spec (st : ParserState) (c : Str) :
    (c = [] ∧ parseChunk st c = st) ∨
    (st.content_sent = true ∧ parseChunk st c = absorbChunk st c) ∨
    (st.content_sent = false ∧ ∃ t b, parseChunk st c =
      { st with chunks_processed := st.chunks_processed + 1
                complete_response := st.complete_response ++ c
                buffer := b
                events := st.events ++ textDelta t }) ∨
    (st.content_sent = false ∧ ∃ t d, (parseChunk st c =
      { st with chunks_processed := st.chunks_processed + 1
                complete_response := st.complete_response ++ c
                buffer := []
                content_sent := true
                sections_found := st.sections_found + 1
                events := st.events ++ textDelta t ++ d }) ∧
      ((∃ s, d = prodDelta st.search_results s) ∨ (∃ s, d = ordDelta st.orders_list s))) := by
  by_cases hc : c.isEmpty
  · exact Or.inl ⟨List.isEmpty_iff.mp hc, by simp [parseChunk, hc]⟩
  · rcases Bool.eq_false_or_eq_true st.content_sent with hcs | hcs
    · refine Or.inr (Or.inl ⟨hcs, ?_⟩)
      unfold parseChunk
      rw [if_neg (by simp [hc]), if_pos (by simpa [absorbChunk] using hcs)]
    · have hstep : parseChunk st c =
          (match processCompleteSections (absorbChunk st c) with
           | some st2 => st2
           | none => handleStreamingText (absorbChunk st c)) := by
        unfold parseChunk
        rw [if_neg (by simp [hc])]
        dsimp only
        rw [if_neg (by simpa [absorbChunk] using hcs)]
      cases hpcs : processCompleteSections (absorbChunk st c) with
      | none =>
        rw [hpcs] at hstep
        obtain ⟨t, b, hshape⟩ := handleStreamingText_shape (absorbChunk st c)
        refine Or.inr (Or.inr (Or.inl (And.intro hcs ⟨t, b, ?_⟩)))
        rw [hstep, hshape]
        simp [absorbChunk]
      | some st2 =>
        rw [hpcs] at hstep
        rcases processCompleteSections_spec _ _ hpcs with ⟨i, cc, _, hout⟩ | ⟨_, i, cc, _, hout⟩
        · refine Or.inr (Or.inr (Or.inr (And.intro hcs
            ⟨((absorbChunk st c).buffer.take i), prodDelta st.search_results (strip cc),
             ?_, Or.inl ⟨strip cc, rfl⟩⟩)))
          rw [hstep, hout, processProductsSection_eq]
          simp [absorbChunk]
        · refine Or.inr (Or.inr (Or.inr (And.intro hcs
            ⟨((absorbChunk st c).buffer.take i), ordDelta st.orders_list (strip cc),
             ?_, Or.inr ⟨strip cc, rfl⟩⟩)))
          rw [hstep, hout, processOrdersSection_eq]
          simp [absorbChunk]

/-- `parse_chunk` always extends `complete_response` by exactly the new chunk. -/
theorem parseChunk_complete_response (st : ParserState) (c : Str) :
    (parseChunk st c).complete_response = st.complete_response ++ c := by
  rcases parseChunk_spec st c with ⟨hc, h⟩ | ⟨_, h⟩ | ⟨_, t, b, h⟩ | ⟨_, t, d, h, _⟩
  · rw [h, hc, List.append_nil]
  · rw [h]
    rfl
  · rw [h]
  · rw [h]

/-! ### Classification of the deltas -/

theorem structuredEvents_append (a b : List Event) :
    structuredEvents (a ++ b) = structuredEvents a ++ structuredEvents b := by
  unfold structuredEvents
  exact List.filter_append ..

theorem structuredEvents_textDelta (t : Str) : structuredEvents (textDelta t) = [] := by
  unfold textDelta structuredEvents
  split <;> simp

theorem structuredEvents_prodDelta (r : List Product) (d : Str) :
    structuredEvents (prodDelta r d) = prodDelta r d := by
  unfold prodDelta structuredEvents
  dsimp only
  split <;> simp

theorem ordDelta_mem (o : List Order) (d : Str) (e : Event) (he : e ∈ ordDelta o d) :
    ∃ x y z, e = Event.order x y z := by
  unfold ordDelta at he
  rw [List.mem_filterMap] at he
  obtain ⟨oid, -, hf⟩ := he
  obtain ⟨ord, -, hmk⟩ := Option.map_eq_some'.mp hf
  exact ⟨ord.order_id, ord.timestamp, ord.delivery_status, hmk.symm⟩

theorem structuredEvents_ordDelta (o : List Order) (d : Str) :
    structuredEvents (ordDelta o d) = ordDelta o d := by
  unfold structuredEvents
  rw [List.filter_eq_self]
  intro e he
  obtain ⟨x, y, z, rfl⟩ := ordDelta_mem o d e he
  rfl

theorem countStreamEnd_append (a b : List Event) :
    countStreamEnd (a ++ b) = countStreamEnd a + countStreamEnd b := by
  unfold countStreamEnd
  rw [List.filter_append, List.length_append]

theorem countStreamEnd_textDelta (t : Str) : countStreamEnd (textDelta t) = 0 := by
  unfold textDelta countStreamEnd
  split <;> simp

theorem countStreamEnd_prodDelta (r : List Product) (d : Str) :
    countStreamEnd (prodDelta r d) = 0 := by
  unfold prodDelta countStreamEnd
  dsimp only
  split <;> simp

theorem countStreamEnd_ordDelta (o : List Order) (d : Str) :
    countStreamEnd (ordDelta o d) = 0 := by
  unfold countStreamEnd
  rw [List.length_eq_zero, List.filter_eq_nil_iff]
  intro e he
  obtain ⟨x, y, z, rfl⟩ := ordDelta_mem o d e he
  simp

theorem countOrderEvents_append (a b : List Event) :
    countOrderEvents (a ++ b) = countOrderEvents a + countOrderEvents b := by
  unfold countOrderEvents
  rw [List.filter_append, List.length_append]

theorem countOrderEvents_textDelta (t : Str) : countOrderEvents (textDelta t) = 0 := by
  unfold textDelta countOrderEvents
  split <;> simp

theorem countOrderEvents_prodDelta (r : List Product) (d : Str) :
    countOrderEvents (prodDelta r d) = 0 := by
  unfold prodDelta countOrderEvents
  dsimp only
  split <;> simp

theorem noWsText_textDelta (t : Str) : (textDelta t).all noWsText = true := by
  unfold textDelta
  split
  · simp
  · rename_i h
    simp [noWsText, h]

theorem noWsText_prodDelta (r : List Product) (d : Str) :
    (prodDelta r d).all noWsText = true := by
  unfold prodDelta
  dsimp only
  split <;> simp [noWsText]

theorem noWsText_ordDelta (o : List Order) (d : Str) :
    (ordDelta o d).all noWsText = true := by
  rw [List.all_eq_true]
  intro e he
  obtain ⟨x, y, z, rfl⟩ := ordDelta_mem o d e he
  rfl

/-! ### The at-most-one-section invariant -/

/-- The structured events of a whole session form at most one batch: nothing,
one `product_search` batch, or the order events of a single Orders section. -/
def OneBatch (evs : List Event) : Prop :=
  evs = [] ∨ (∃ ps, evs = [Event.productSearch ps]) ∨
  (∃ os : List Order,
    evs = os.map (fun o => Event.order o.order_id o.timestamp o.delivery_status))

theorem oneBatch_prodDelta (r : List Product) (d : Str) : OneBatch (prodDelta r d) := by
  unfold prodDelta
  dsimp only
  split
  · exact Or.inl rfl
  · exact Or.inr (Or.inl ⟨_, rfl⟩)

theorem oneBatch_ordDelta (o : List Order) (d : Str) : OneBatch (ordDelta o d) := by
  refine Or.inr (Or.inr ⟨(parseIds d).filterMap (fun oid => o.find? (fun e => e.order_id == oid)), ?_⟩)
  unfold ordDelta
  rw [List.map_filterMap]

/-- Session invariant: before any section is processed nothing structured has
been emitted; afterwards the structured events form one batch. -/
def SessionInv (st : ParserState) : Prop :=
  (st.content_sent = false ∧ st.sections_found = 0 ∧ structuredEvents st.events = []) ∨
  (st.content_sent = true ∧ st.sections_found ≤ 1 ∧ OneBatch (structuredEvents st.events))

theorem sessionInv_init (results : List Product) (orders : List Order) :
    SessionInv (initParser results orders) :=
  Or.inl ⟨rfl, rfl, rfl⟩

theorem sessionInv_parseChunk (st : ParserState) (c : Str) (h : SessionInv st) :
    SessionInv (parseChunk st c) := by
  rcases parseChunk_spec st c with ⟨-, heq⟩ | ⟨hcs, heq⟩ | ⟨hcs, t, b, heq⟩ |
    ⟨hcs, t, d, heq, hd⟩
  · rw [heq]
    exact h
  · rw [heq]
    rcases h with ⟨h1, -, -⟩ | ⟨-, h2, h3⟩
    · rw [hcs] at h1
      exact absurd h1 (by simp)
    · exact Or.inr ⟨hcs, h2, h3⟩
  · rcases h with ⟨-, h2, h3⟩ | ⟨h1, -, -⟩
    · refine Or.inl ⟨?_, ?_, ?_⟩
      · rw [heq]
        exact hcs
      · rw [heq]
        exact h2
      · rw [heq]
        dsimp only
        rw [structuredEvents_append, h3, structuredEvents_textDelta]
        rfl
    · rw [h1] at hcs
      exact absurd hcs (by simp)
  · rcases h with ⟨-, h2, h3⟩ | ⟨h1, -, -⟩
    · refine Or.inr ⟨?_, ?_, ?_⟩
      · rw [heq]
      · rw [heq]
        dsimp only
        rw [h2]
      · rw [heq]
        dsimp only
        rw [structuredEvents_append, structuredEvents_append, h3,
          structuredEvents_textDelta]
        rcases hd with ⟨s, rfl⟩ | ⟨s, rfl⟩
        · rw [structuredEvents_prodDelta]
          exact oneBatch_prodDelta ..
        · rw [structuredEvents_ordDelta]
          exact oneBatch_ordDelta ..
    · rw [h1] at hcs
      exact absurd hcs (by simp)

theorem sessionInv_runChunks (chunks : List Str) (st : ParserState) (h : SessionInv st) :
    SessionInv (runChunks st chunks) := by
  induction chunks generalizing st with
  | nil => exact h
  | cons c rest ih => exact ih (parseChunk st c) (sessionInv_parseChunk st c h)

/-! ### `flush` and `finalize` -/

theorem flush_eq (st : ParserState) :
    flush st = { st with buffer := [], events := st.events ++ textDelta st.buffer } := by
  unfold flush
  dsimp only
  rw [sendTextChunk_eq]

theorem finalize_events (st : ParserState) :
    (finalize st).events = st.events ++
      (if st.content_sent = false ∧ (strip st.buffer).isEmpty = false
        then [Event.textChunk st.buffer] else []) ++ [Event.streamEnd] := by
  unfold finalize emit
  dsimp only
  by_cases h1 : st.content_sent = true
  · rw [if_neg (by simp [h1]), if_neg (by simp [h1])]
    simp
  · have h1' : st.content_sent = false := by simpa using h1
    by_cases h2 : (strip st.buffer).isEmpty = true
    · rw [if_neg (by simp [h2]), if_neg (by simp [h2])]
      simp
    · rw [if_pos (by simp [h1', h2]), if_pos ⟨h1', by simpa using h2⟩,
        sendTextChunk_eq]
      dsimp only
      unfold textDelta
      rw [if_neg h2]

theorem finalize_countStreamEnd (st : ParserState) (h : countStreamEnd st.events = 0) :
    countStreamEnd (finalize st).events = 1 := by
  rw [finalize_events, countStreamEnd_append, countStreamEnd_append, h]
  split <;> rfl

/-! ### Per-operation step lemmas -/

theorem parseChunk_countStreamEnd (st : ParserState) (c : Str) :
    countStreamEnd (parseChunk st c).events = countStreamEnd st.events := by
  rcases parseChunk_spec st c with ⟨-, heq⟩ | ⟨-, heq⟩ | ⟨-, t, b, heq⟩ | ⟨-, t, d, heq, hd⟩
  · rw [heq]
  · rw [heq]
    rfl
  · rw [heq]
    dsimp only
    rw [countStreamEnd_append, countStreamEnd_textDelta]
    rfl
  · rw [heq]
    dsimp only
    rw [countStreamEnd_append, countStreamEnd_append, countStreamEnd_textDelta]
    rcases hd with ⟨s, rfl⟩ | ⟨s, rfl⟩
    · rw [countStreamEnd_prodDelta]
      rfl
    · rw [countStreamEnd_ordDelta]
      rfl

theorem runChunks_countStreamEnd (chunks : List Str) (st : ParserState) :
    countStreamEnd (runChunks st chunks).events = countStreamEnd st.events := by
  induction chunks generalizing st with
  | nil => rfl
  | cons c rest ih => rw [runChunks, List.foldl_cons, ← runChunks, ih, parseChunk_countStreamEnd]

theorem parseChunk_noWs (st : ParserState) (c : Str)
    (h : st.events.all noWsText = true) : (parseChunk st c).events.all noWsText = true := by
  rcases parseChunk_spec st c with ⟨-, heq⟩ | ⟨-, heq⟩ | ⟨-, t, b, heq⟩ | ⟨-, t, d, heq, hd⟩
  · rw [heq]
    exact h
  · rw [heq]
    exact h
  · rw [heq]
    dsimp only
    rw [List.all_append, h, noWsText_textDelta]
    rfl
  · rw [heq]
    dsimp only
    rw [List.all_append, List.all_append, h, noWsText_textDelta]
    rcases hd with ⟨s, rfl⟩ | ⟨s, rfl⟩
    · rw [noWsText_prodDelta]
      rfl
    · rw [noWsText_ordDelta]
      rfl

theorem flush_noWs (st : ParserState)
    (h : st.events.all noWsText = true) : (flush st).events.all noWsText = true := by
  rw [flush_eq]
  dsimp only
  rw [List.all_append, h, noWsText_textDelta]
  rfl

theorem finalize_noWs (st : ParserState)
    (h : st.events.all noWsText = true) : (finalize st).events.all noWsText = true := by
  rw [finalize_events, List.all_append, List.all_append, h]
  split
  · rename_i hcond
    have : (!(strip st.buffer).isEmpty) = true := by simp [hcond.2]
    simp [noWsText, this]
  · rfl

theorem applyOp_noWs (st : ParserState) (op : Op)
    (h : st.events.all noWsText = true) : (applyOp st op).events.all noWsText = true := by
  cases op with
  | chunk s => exact parseChunk_noWs st s h
  | flushOp => exact flush_noWs st h
  | finalizeOp => exact finalize_noWs st h

theorem runOps_noWs (ops : List Op) (st : ParserState)
    (h : st.events.all noWsText = true) : (runOps st ops).events.all noWsText = true := by
  induction ops generalizing st with
  | nil => exact h
  | cons op rest ih => exact ih (applyOp st op) (applyOp_noWs st op h)

/-- `prodDelta` is empty exactly when no search result matches a parsed identifier. -/
theorem prodDelta_eq_nil_iff (r : List Product) (d : Str) :
    prodDelta r d = [] ↔ ∀ x ∈ r, x.sourceId ∉ parseIds d := by
  unfold prodDelta
  dsimp only
  split
  · rename_i h
    have hfil := List.isEmpty_iff.mp h
    rw [List.filter_eq_nil_iff] at hfil
    refine iff_of_true rfl ?_
    intro x hx hmem
    exact (hfil x hx) (by simpa using hmem)
  · rename_i h
    have hne : r.filter (fun x => (parseIds d).contains x.sourceId) ≠ [] := by
      simpa [List.isEmpty_iff] using h
    rw [ne_eq, List.filter_eq_nil_iff] at hne
    push_neg at hne
    obtain ⟨a, ha, hc⟩ := hne
    refine iff_of_false (by simp) ?_
    intro hall
    exact hall a ha (by simpa using hc)

/-! ### The routing model

Translated from `RouterHandler.route_message` in
`lambda/websocket/message_handlers.py` and `_handle_standard_mode` in
`lambda/websocket/message_refactored.py`.  The external classifier call is
abstracted as an outcome: a returned string, or a raised exception. -/

/-- Outcome of the external classification call inside `route_message`. -/
inductive ClassifierOutcome where
  | ok (code : Str)
  | err
deriving DecidableEq, Repr

/-- `route_message`: return the classifier text verbatim; on exception return
the fixed fallback ("3" with `use_agent`, else "4"). -/
def routeMessage (use_agent : Bool) : ClassifierOutcome → Str
  | ClassifierOutcome.ok code => code
  | ClassifierOutcome.err => if use_agent then "3".toList else "4".toList

/-- The five standard-mode handlers. -/
inductive Handler where
  | orderHistory
  | productSearchHandler
  | productDetails
  | generalInquiry
  | compareProducts
deriving DecidableEq, Repr

/-- `_handle_standard_mode`: exact string dispatch on the assistant number;
no branch matches any other string, so no handler runs (`none`). -/
def handleStandardMode (assistant_number : Str) : Option Handler :=
  if assistant_number = "1".toList then some Handler.orderHistory
  else if assistant_number = "2".toList then some Handler.productSearchHandler
  else if assistant_number = "3".toList then some Handler.productDetails
  else if assistant_number = "4".toList then some Handler.generalInquiry
  else if assistant_number = "5".toList then some Handler.compareProducts
  else none

/-- The five codes recognised by `_handle_standard_mode`. -/
def standardCodes : List Str :=
  ["1".toList, "2".toList, "3".toList, "4".toList, "5".toList]

/-! ### Concrete data for the scenario claims -/

/-- Search-result entry with `_source.id = "p1"`. -/
def sampleP1 : Product := ⟨"p1".toList⟩

/-- Search-result entry with `_source.id = "p2"`. -/
def sampleP2 : Product := ⟨"p2".toList⟩

/-- Search-result entry with `_source.id = "p3"`. -/
def sampleP3 : Product := ⟨"p3".toList⟩

/-- Order entry with `order_id = "A"`. -/
def sampleOrderA : Order := ⟨"A".toList, "2024-01-01".toList, "shipped".toList⟩

/-- Order entry with `order_id = "B"`. -/
def sampleOrderB : Order := ⟨"B".toList, "2024-02-02".toList, "delivered".toList⟩

/-- A stream containing a complete Orders section only. -/
def ordersOnlyText : Str := "<|ORDERS|>A<|/ORDERS|>".toList

/-- A stream containing a complete Orders section followed by a complete
Products section. -/
def mixedText : Str := "<|ORDERS|>A<|/ORDERS|><|PRODUCTS|>p1<|/PRODUCTS|>".toList

/-- The representative narrative-plus-Products stream of the end-to-end
scenario (51 characters). -/
def heroText : Str := "Here are your items: <|PRODUCTS|>p1,p2<|/PRODUCTS|>".toList

/-- The end-to-end scenario session: three increments, then `finalize`. -/
def scenarioFinal : ParserState :=
  finalize (parseChunk (parseChunk (parseChunk (initParser [sampleP1, sampleP2] [])
    "Here are your items: ".toList) "<|PROD".toList) "UCTS|>p1,p2<|/PRODUCTS|>".toList)

/-- Concatenation of all `text_chunk` payloads of an event log, in order. -/
def textConcat (evs : List Event) : Str :=
  evs.foldr (fun e acc =>
    match e with
    | Event.textChunk t => t ++ acc
    | _ => acc) []

/-! ### The claims -/

/-- C1 (counterexample): chunking is NOT invariant for every text containing a
complete marker literal.  For the text `<|ORDERS|>A<|/ORDERS|><|PRODUCTS|>p1<|/PRODUCTS|>`
(with search results `[p1]` and no orders), the single-call session emits one
`product_search` batch, while splitting at byte offset 22 makes the first call
process the Orders section (emitting nothing, orders list empty) and suppress
the Products section, so the final structured events differ. -/
theorem C1_marker_split_counterexample :
    mixedText = mixedText.take 22 ++ mixedText.drop 22 ∧
    structuredEvents ((parseChunk (parseChunk (initParser [sampleP1] [])
        (mixedText.take 22)) (mixedText.drop 22)).events) ≠
      structuredEvents ((parseChunk (initParser [sampleP1] []) mixedText).events) := by
  decide

/-- C1 (amended): splitting an input into two `parseChunk` calls always
preserves the final `completeResponse`; and for the representative
single-Products-section text `Here are your items: <|PRODUCTS|>p1,p2<|/PRODUCTS|>`
(51 characters, search results `[p1, p2]`), splitting at every byte offset
also preserves the final structured events.  Invariance of the structured
events fails in general when sections of both kinds are involved (see the
counterexample). -/
theorem C1_marker_split_amended :
    (∀ (st : ParserState) (c : Str),
      (parseChunk st c).complete_response = st.complete_response ++ c) ∧
    (∀ k : Nat, k < 52 →
      structuredEvents ((parseChunk (parseChunk (initParser [sampleP1, sampleP2] [])
          (heroText.take k)) (heroText.drop k)).events) =
        structuredEvents ((parseChunk (initParser [sampleP1, sampleP2] []) heroText).events)) :=
  ⟨parseChunk_complete_response, by decide⟩

/-- C1 (witness): the amended theorem applied at the split offset 27, which
falls inside the `<|PRODUCTS|>` open marker. -/
theorem C1_marker_split_witness :
    structuredEvents ((parseChunk (parseChunk (initParser [sampleP1, sampleP2] [])
        (heroText.take 27)) (heroText.drop 27)).events) =
      structuredEvents ((parseChunk (initParser [sampleP1, sampleP2] []) heroText).events) :=
  C1_marker_split_amended.2 27 (by decide)

/-- C2: over any sequence of `parseChunk` calls on a fresh session, at most one
structured section is processed (`sections_found ≤ 1`), and the structured
events emitted over the whole session are nothing, one `product_search` batch,
or the order events of a single Orders section. -/
theorem C2_at_most_one_section :
    ∀ (results : List Product) (orders : List Order) (chunks : List Str),
      (runChunks (initParser results orders) chunks).sections_found ≤ 1 ∧
      OneBatch (structuredEvents (runChunks (initParser results orders) chunks).events) := by
  intro results orders chunks
  rcases sessionInv_runChunks chunks (initParser results orders)
      (sessionInv_init results orders) with ⟨-, h2, h3⟩ | ⟨-, h2, h3⟩
  · exact ⟨by rw [h2]; exact Nat.zero_le 1, Or.inl h3⟩
  · exact ⟨h2, h3⟩

/-- C3 (counterexample): when the classifier RETURNS an unrecognized string
(here `"6"`), standard mode dispatches to no handler at all — not to the
General Inquiry handler — because `_handle_standard_mode` has no default
branch. -/
theorem C3_router_fallback_counterexample :
    "6".toList ∉ standardCodes ∧
    handleStandardMode (routeMessage false (ClassifierOutcome.ok "6".toList)) = none ∧
    handleStandardMode (routeMessage false (ClassifierOutcome.ok "6".toList)) ≠
      some Handler.generalInquiry := by
  decide

/-- C3 (amended): in standard mode, a classifier EXCEPTION is mapped to code
"4" and dispatches to the General Inquiry handler; a classifier RETURN of any
string other than "1".."5" dispatches to no handler (a silent no-op, `none`),
and the total dispatch function never throws. -/
theorem C3_router_fallback_amended :
    handleStandardMode (routeMessage false ClassifierOutcome.err) =
      some Handler.generalInquiry ∧
    (∀ code : Str, code ∉ standardCodes →
      handleStandardMode (routeMessage false (ClassifierOutcome.ok code)) = none) := by
  constructor
  · decide
  · intro code h
    simp only [standardCodes, List.mem_cons, List.not_mem_nil, or_false, not_or] at h
    obtain ⟨h1, h2, h3, h4, h5⟩ := h
    unfold handleStandardMode routeMessage
    rw [if_neg h1, if_neg h2, if_neg h3, if_neg h4, if_neg h5]

/-- C3 (witness): the amended theorem applied at the unrecognized code "6". -/
theorem C3_router_fallback_witness :
    handleStandardMode (routeMessage false (ClassifierOutcome.ok "6".toList)) = none :=
  C3_router_fallback_amended.2 "6".toList (by decide)

/-- C4 (counterexample): after a structured section has been processed
(`content_sent = true`), a later increment followed by `flush()` DOES emit a
`text_chunk` ("hello" here), because `flush` does not consult `content_sent`. -/
theorem C4_suppression_counterexample :
    (parseChunk (initParser [] []) ordersOnlyText).content_sent = true ∧
    (flush (parseChunk (parseChunk (initParser [] []) ordersOnlyText)
        "hello".toList)).events = [Event.textChunk "hello".toList] := by
  decide

/-- C4 (amended): once `content_sent` is true, `parseChunk` emits no event at
all (later increments only extend `completeResponse` and the buffer), and
`finalize` emits only the `stream_end` signal; `flush`, however, is excepted —
it still forwards non-whitespace buffered text (see the counterexample). -/
theorem C4_suppression_amended :
    (∀ (st : ParserState) (c : Str), st.content_sent = true →
      (parseChunk st c).events = st.events ∧
      (parseChunk st c).complete_response = st.complete_response ++ c ∧
      (parseChunk st c).buffer = st.buffer ++ c) ∧
    (∀ st : ParserState, st.content_sent = true →
      (finalize st).events = st.events ++ [Event.streamEnd]) := by
  constructor
  · intro st c h
    rcases parseChunk_spec st c with ⟨hc, heq⟩ | ⟨-, heq⟩ | ⟨hcs, -⟩ | ⟨hcs, -⟩
    · rw [heq, hc]
      exact ⟨rfl, by simp, by simp⟩
    · rw [heq]
      exact ⟨rfl, rfl, rfl⟩
    · rw [h] at hcs
      exact absurd hcs (by simp)
    · rw [h] at hcs
      exact absurd hcs (by simp)
  · intro st h
    rw [finalize_events, if_neg (by simp [h])]
    simp

/-- C4 (witness): the amended theorem applied to the session that has just
processed an Orders section. -/
theorem C4_suppression_witness :
    (parseChunk (initParser [] []) ordersOnlyText).content_sent = true ∧
    (parseChunk (parseChunk (initParser [] []) ordersOnlyText) "x".toList).events =
      (parseChunk (initParser [] []) ordersOnlyText).events ∧
    (finalize (parseChunk (initParser [] []) ordersOnlyText)).events =
      (parseChunk (initParser [] []) ordersOnlyText).events ++ [Event.streamEnd] :=
  ⟨by decide, (C4_suppression_amended.1 _ "x".toList (by decide)).1,
    C4_suppression_amended.2 _ (by decide)⟩

/-- C5 (counterexample): the end-to-end scenario does NOT emit a single
`text_chunk` whose payload is the whole narrative "Here are your items: " —
no event with that payload occurs (the narrative is forwarded in three
pieces), so the claimed three-event trace does not occur either. -/
theorem C5_scenario_counterexample :
    Event.textChunk "Here are your items: ".toList ∉ scenarioFinal.events ∧
    scenarioFinal.events ≠
      [Event.textChunk "Here are your items: ".toList,
       Event.productSearch [sampleP1, sampleP2], Event.streamEnd] := by
  decide

/-- C5 (amended): the scenario emits `text_chunk` events whose concatenated
payloads equal "Here are your items: " (three pieces: "H", "ere ar",
"e your items: "), then exactly one `product_search` batch containing p1 and
p2, then exactly one `stream_end`. -/
theorem C5_scenario_amended :
    scenarioFinal.events =
      [Event.textChunk "H".toList,
       Event.textChunk "ere ar".toList,
       Event.textChunk "e your items: ".toList,
       Event.productSearch [sampleP1, sampleP2],
       Event.streamEnd] ∧
    textConcat scenarioFinal.events = "Here are your items: ".toList ∧
    structuredEvents scenarioFinal.events = [Event.productSearch [sampleP1, sampleP2]] ∧
    countStreamEnd scenarioFinal.events = 1 := by
  decide

/-- C6: `_send_orders` emits exactly one `order` event per identifier with a
match in the orders reference (first matching entry, identifier-list order,
unmatched identifiers skipped), carrying only `order_id`, `timestamp` (as
`order_date`) and `delivery_status` (as `status`); in particular, for orders
`[A, B]` and identifiers "A,B,C" it emits exactly the events for A then B. -/
theorem C6_orders_resolver :
    (∀ (st : ParserState) (d : Str),
      (sendOrders st d).events = st.events ++ ordDelta st.orders_list d) ∧
    (sendOrders (initParser [] [sampleOrderA, sampleOrderB]) "A,B,C".toList).events =
      [Event.order "A".toList "2024-01-01".toList "shipped".toList,
       Event.order "B".toList "2024-02-02".toList "delivered".toList] := by
  constructor
  · intro st d
    rw [sendOrders_eq]
  · decide

/-- C7: `_send_products` emits a `product_search` event iff some search-result
entry's `_source.id` equals a parsed identifier; when emitted it is one batch
containing exactly the matching entries in the reference collection's original
order; with no match nothing is emitted, yet `_process_products_section` still
sets `content_sent`.  In particular `[p1,p2,p3]` with "p3, p1" yields one
batch `[p1, p3]`. -/
theorem C7_products_resolver :
    (∀ (st : ParserState) (d : Str),
      (sendProducts st d).events = st.events ++ prodDelta st.search_results d) ∧
    (∀ (st : ParserState) (d : Str),
      (sendProducts st d).events ≠ st.events ↔
        ∃ r ∈ st.search_results, r.sourceId ∈ parseIds d) ∧
    (sendProducts (initParser [sampleP1, sampleP2, sampleP3] []) "p3, p1".toList).events =
      [Event.productSearch [sampleP1, sampleP3]] ∧
    (∀ (st : ParserState) (i : Nat) (c : Str),
      (processProductsSection st i c).content_sent = true) := by
  refine ⟨?_, ?_, by decide, ?_⟩
  · intro st d
    rw [sendProducts_eq]
  · intro st d
    rw [show (sendProducts st d).events = st.events ++ prodDelta st.search_results d
        from by rw [sendProducts_eq], ne_eq, List.append_right_eq_self,
      prodDelta_eq_nil_iff]
    push_neg
    rfl
  · intro st i c
    rw [processProductsSection_eq]

/-- C8: on a `parseChunk` call whose buffer holds both a complete Products
section and a complete Orders section, exactly one section is processed and it
is the Products one: the step equals `_process_products_section` on the
Products match, `sections_found` rises by exactly one, and no `order` event is
emitted. -/
theorem C8_products_precedence :
    ∀ (st : ParserState) (c : Str), c.isEmpty = false → st.content_sent = false →
    ∀ (i : Nat) (pc : Str),
      sectionMatch PRODUCTS_OPEN PRODUCTS_CLOSES (st.buffer ++ c) = some (i, pc) →
      (sectionMatch ORDERS_OPEN ORDERS_CLOSES (st.buffer ++ c)).isSome = true →
      parseChunk st c = processProductsSection (absorbChunk st c) i pc ∧
      (parseChunk st c).sections_found = st.sections_found + 1 ∧
      countOrderEvents (parseChunk st c).events = countOrderEvents st.events := by
  intro st c hc hcs i pc hprod hord
  have habs : (absorbChunk st c).buffer = st.buffer ++ c := rfl
  have hpc : processCompleteSections (absorbChunk st c) =
      some (processProductsSection (absorbChunk st c) i pc) := by
    unfold processCompleteSections
    rw [habs, hprod]
  have hstep : parseChunk st c = processProductsSection (absorbChunk st c) i pc := by
    unfold parseChunk
    rw [if_neg (by simp [hc])]
    dsimp only
    rw [if_neg (by simp [absorbChunk, hcs]), hpc]
  refine ⟨hstep, ?_, ?_⟩
  · rw [hstep, processProductsSection_eq]
    rfl
  · rw [hstep, processProductsSection_eq]
    dsimp only
    rw [countOrderEvents_append, countOrderEvents_append, countOrderEvents_textDelta,
      countOrderEvents_prodDelta]
    rfl

/-- C8 (witness): the precedence theorem applied to the concrete buffer holding
a complete Orders section followed by a complete Products section. -/
theorem C8_products_precedence_witness :
    parseChunk (initParser [sampleP1] [sampleOrderA]) mixedText =
      processProductsSection (absorbChunk (initParser [sampleP1] [sampleOrderA]) mixedText)
        22 "p1".toList ∧
    (parseChunk (initParser [sampleP1] [sampleOrderA]) mixedText).sections_found =
      (initParser [sampleP1] [sampleOrderA]).sections_found + 1 ∧
    countOrderEvents (parseChunk (initParser [sampleP1] [sampleOrderA]) mixedText).events =
      countOrderEvents (initParser [sampleP1] [sampleOrderA]).events :=
  C8_products_precedence _ _ (by decide) (by decide) 22 "p1".toList (by decide) (by decide)

/-- C9: after any sequence of `parseChunk` calls on a fresh session, one
`finalize` call appends any still-buffered non-whitespace text exactly once
(and only when no structured section was sent), then exactly one `stream_end`;
the whole log then contains exactly one `stream_end`, and `finalize` on a
fresh session emits only `stream_end`. -/
theorem C9_finalize_contract :
    ∀ (results : List Product) (orders : List Order) (chunks : List Str),
      (finalize (runChunks (initParser results orders) chunks)).events =
        (runChunks (initParser results orders) chunks).events ++
        (if (runChunks (initParser results orders) chunks).content_sent = false ∧
            (strip (runChunks (initParser results orders) chunks).buffer).isEmpty = false
          then [Event.textChunk (runChunks (initParser results orders) chunks).buffer]
          else []) ++ [Event.streamEnd] ∧
      countStreamEnd (finalize (runChunks (initParser results orders) chunks)).events = 1 ∧
      (finalize (initParser results orders)).events = [Event.streamEnd] := by
  intro results orders chunks
  refine ⟨finalize_events _, ?_, ?_⟩
  · exact finalize_countStreamEnd _ (by rw [runChunks_countStreamEnd]; rfl)
  · rw [finalize_events]
    simp [initParser, strip]

/-- C10: over any sequence of `parseChunk`, `flush` and `finalize` calls on a
fresh session, no emitted `text_chunk` event has a whitespace-only payload:
every send path drops text that is empty after stripping. -/
theorem C10_no_whitespace_text :
    ∀ (results : List Product) (orders : List Order) (ops : List Op),
      ((runOps (initParser results orders) ops).events).all noWsText = true := by
  intro results orders ops
  exact runOps_noWs ops (initParser results orders) rfl

end ShoppingAgent
